import Mathlib

/-!
Verification of the Ditto scripting-language core (compiler + bytecode VM + object model).

This file gives a shallow embedding, in Lean 4, of the parts of the C source that the
claims C1 to C10 are about, and proves or refutes each claim against that embedding.

Modelling conventions, used throughout:
* C machine integers are modelled as naturals; where 32-bit wrap-around matters it is
  written out explicitly as arithmetic modulo 2 ^ 32.
* IEEE-754 doubles are modelled as rationals.  Every concrete number appearing in the
  claims is a small integer, which doubles represent exactly; comments at the relevant
  definitions justify the translation of each floating-point comparison.
* C functions that can abort the fiber or the compile are modelled in Except or Option;
  reads of uninitialized memory and other undefined behaviour are modelled as explicit
  failure constructors, never silently given a value.
* Heap-object identity (pointer equality) is modelled by a numeric object id carried in
  the object constructor, or by structural equality for class objects, which in the
  modelled programs are in bijection with their names.
-/

namespace Ditto

/-! ## Values (header_obj.h)

The Value struct is a type tag plus a union of a double and an object-header pointer.
Object payloads needed by the claims are carried inline: string contents and range
bounds.  For the remaining kinds only the identity (a numeric id standing for the
header pointer) is kept, matching the fact that the C code never inspects their
contents in the modelled paths; in particular a class object is its id, and the
superClass pointer structure of the class heap is carried separately (see the section
on primObjectIs). -/

inductive VObj where
  | str (s : String)
  | range (rangeFrom rangeTo : ℚ)
  | cls (id : ℕ)
  | listO (id : ℕ)
  | closure (id : ℕ)
  | inst (id : ℕ)
  | threadO (id : ℕ)
  | moduleO (id : ℕ)
deriving DecidableEq, Repr

inductive Value where
  | undefined
  | null
  | vtrue
  | vfalse
  | num (q : ℚ)
  | obj (o : VObj)
deriving DecidableEq, Repr

/-- VALUE_IS_UNDEFINED from class.h. -/
def VALUE_IS_UNDEFINED : Value → Bool
  | .undefined => true
  | _ => false

/-- VALUE_IS_NULL from class.h. -/
def VALUE_IS_NULL : Value → Bool
  | .null => true
  | _ => false

/-- VALUE_IS_TRUE from class.h. -/
def VALUE_IS_TRUE : Value → Bool
  | .vtrue => true
  | _ => false

/-- VALUE_IS_FALSE from class.h. -/
def VALUE_IS_FALSE : Value → Bool
  | .vfalse => true
  | _ => false

/-- VALUE_IS_NUM from class.h. -/
def VALUE_IS_NUM : Value → Bool
  | .num _ => true
  | _ => false

/-- VALUE_IS_CLASS from class.h: an object value whose header type is OT_CLASS. -/
def VALUE_IS_CLASS : Value → Bool
  | .obj (.cls _) => true
  | _ => false

/-- VALUE_IS_OBJRANGE from class.h. -/
def VALUE_IS_OBJRANGE : Value → Bool
  | .obj (.range _ _) => true
  | _ => false

/-- VALUE_IS_OBJSTR from class.h. -/
def VALUE_IS_OBJSTR : Value → Bool
  | .obj (.str _) => true
  | _ => false

/-- valueIsEqual from object/class.c.  Different type tags are unequal; numbers compare
numerically; otherwise the header pointers are compared first (for the four singleton
tags both pointers are the zero written by VT_TO_VALUE, so equal tags compare equal),
then strings by contents, ranges by bounds, and every other object kind by identity. -/
def valueIsEqual (a b : Value) : Bool :=
  match a, b with
  | .undefined, .undefined => true
  | .null, .null => true
  | .vtrue, .vtrue => true
  | .vfalse, .vfalse => true
  | .num x, .num y => x == y
  | .obj (.str x), .obj (.str y) => x == y
  | .obj (.range xf xt), .obj (.range yf yt) => xf == yf && xt == yt
  | .obj (.cls x), .obj (.cls y) => x == y
  | .obj (.listO x), .obj (.listO y) => x == y
  | .obj (.closure x), .obj (.closure y) => x == y
  | .obj (.inst x), .obj (.inst y) => x == y
  | .obj (.threadO x), .obj (.threadO y) => x == y
  | .obj (.moduleO x), .obj (.moduleO y) => x == y
  | _, _ => false

/-! ## C2: Object.is ( primObjectIs in vm/core.c ) and the superClass pointers

A class object's superClass field is a pointer to another class object or NULL.  Class
objects are identified by their header pointer, modelled as a numeric id; a heap state
is the superClass field of every class, a function from class id to Option id.
newRawClass (object/class.c) initializes the field to NULL, and the only assignment
ever made to it afterwards is the first line of bindSuperClass (vm/core.c):

    subClass->superClass = subClass;

so every class that ever gets a superclass bound - every script class and every
metaclass made by newClass for OPCODE_CREATE_CLASS, and the bootstrap classOfClass and
objectMetaClass - ends up pointing at ITSELF, whatever superclass was requested; only
classes never passed to bindSuperClass as the subclass, such as objectClass, keep NULL.

primObjectIs checks VALUE_IS_CLASS on the argument and raises "argument must be
class!" otherwise; then with thisClass = getClassOfObj(args[0]) and baseClass = the
argument class it loops: while baseClass is not NULL, return true if
thisClass == baseClass, else baseClass = baseClass->superClass; after the loop return
false.  The loop steps along the superclass pointer OF THE ARGUMENT, and on the cyclic
pointer states that bindSuperClass creates it can run forever, so it takes a fuel
bounding the number of iterations; none means the loop has not exited. -/

/-- The superClass-field assignment of bindSuperClass from vm/core.c.  The superClass
parameter is what the caller asked to bind; the function stores the SUBCLASS itself in
the field (its remaining lines copy the field count and methods of the requested
superclass, which no claim depends on). -/
def bindSuperClass (superClassOf : ℕ → Option ℕ) (subClass : ℕ) (superClass : ℕ) :
    ℕ → Option ℕ :=
  fun c => if c = subClass then some subClass else superClassOf c

/-- The while loop of primObjectIs.  The first argument of the match is the current
baseClass pointer (none = NULL, which exits the loop with false). -/
def primObjectIsLoop (superClassOf : ℕ → Option ℕ) (thisClass : ℕ) :
    Option ℕ → ℕ → Option Bool
  | none, _ => some false
  | some _, 0 => none
  | some baseClass, fuel + 1 =>
      if thisClass == baseClass then some true
      else primObjectIsLoop superClassOf thisClass (superClassOf baseClass) fuel

/-- primObjectIs from vm/core.c, the receiver already resolved to its class id by
getClassOfObj; the outer none is the divergence of the walk. -/
def primObjectIs (superClassOf : ℕ → Option ℕ) (thisClass : ℕ) (arg : Value)
    (fuel : ℕ) : Option (Except String Value) :=
  match arg with
  | .obj (.cls baseClass) =>
      match primObjectIsLoop superClassOf thisClass (some baseClass) fuel with
      | none => none
      | some b => some (.ok (if b then Value.vtrue else Value.vfalse))
  | _ => some (.error "argument must be class!")

/-- Written from the claim, for comparison with primObjectIs: the n-th superclass of c,
so that X appears on the superclass chain of c (including c itself) exactly when some n
gives some X. -/
def iterateSuperClass (superClassOf : ℕ → Option ℕ) : ℕ → ℕ → Option ℕ
  | c, 0 => some c
  | c, n + 1 =>
      match superClassOf c with
      | none => none
      | some s => iterateSuperClass superClassOf s n

/-! ## C1: forward-jump backpatching (compiler/compiler.c)

writeByte appends one byte to the instruction stream of the compile unit and returns
the index of the byte just written (instrStream.count - 1).  emitIntstrWithPlaceholder
writes the opcode and two 0xff placeholder bytes and returns the index of the first
placeholder.  patchPlaceHolder computes offset = count - absIndex - 2 and writes it
back over the two placeholder bytes.  The source writes

    datas[absIndex]     = (offset >> 8) && 0xff;
    datas[absIndex + 1] = offset && 0xff;

with the LOGICAL and operator, whose C result is 0 or 1, although the adjacent comments
describe a bitwise mask of the high and low 8 bits.  The two let-bindings hi and lo
below translate the logical-and expressions exactly. -/

def writeByte (instrStream : List ℕ) (byte : ℕ) : List ℕ × ℕ :=
  (instrStream ++ [byte % 256], instrStream.length)

def writeOpCode (instrStream : List ℕ) (opCode : ℕ) : List ℕ :=
  (writeByte instrStream opCode).1

def emitIntstrWithPlaceholder (instrStream : List ℕ) (opCode : ℕ) : List ℕ × ℕ :=
  let s1 := writeOpCode instrStream opCode
  let s2 := (writeByte s1 0xff).1
  let r := writeByte s2 0xff
  (r.1, r.2 - 1)

def patchPlaceHolder (instrStream : List ℕ) (absIndex : ℕ) : List ℕ :=
  let offset := instrStream.length - absIndex - 2
  let hi := if offset >>> 8 ≠ 0 then 1 else 0
  let lo := if offset ≠ 0 then 1 else 0
  (instrStream.set absIndex hi).set (absIndex + 1) lo

/-- Decoding of a 2-byte operand as the VM does it: high byte first (READ_SHORT). -/
def decodeShortOperand (instrStream : List ℕ) (absIndex : ℕ) : ℕ :=
  256 * instrStream.getD absIndex 0 + instrStream.getD (absIndex + 1) 0

/-! ## C3: module variables and end-of-module check (compiler/compiler.c)

A module carries parallel lists of variable names and values.  declareModuleVar appends
without any duplicate check and returns the new index.  defineModuleVar first looks the
name up; if absent it appends, if present with a Number value (a pending forward
reference) it overwrites the value, and otherwise reports a redefinition by returning
-1, modelled as the third component none. -/

def declareModuleVar (names : List String) (values : List Value) (name : String)
    (value : Value) : List String × List Value × ℕ :=
  (names ++ [name], values ++ [value], names.length)

def defineModuleVar (names : List String) (values : List Value) (name : String)
    (value : Value) : List String × List Value × Option ℕ :=
  match names.findIdx? (fun s => s == name) with
  | none => (names ++ [name], values ++ [value], some names.length)
  | some symbolIndex =>
      if VALUE_IS_NUM (values.getD symbolIndex Value.undefined) then
        (names, values.set symbolIndex value, some symbolIndex)
      else
        (names, values, none)

/-- Step 6 of the bare-identifier resolution in id (compiler/compiler.c): when the name
resolves to nothing else and is not yet a module variable, declare it with the current
line number as a Number value. -/
def idForwardDeclare (names : List String) (values : List Value) (name : String)
    (lineNo : ℕ) : List String × List Value × ℕ :=
  declareModuleVar names values name (Value.num lineNo)

/-- The finalization loop of compileModule (compiler/compiler.c), run over the values of
the module variables introduced by this compilation.  The source tests
VALUE_IS_NULL(moduleVarValue.datas[idx]) and raises the not-defined compile error on a
hit; the error string here keeps the fixed part of the message. -/
def compileModuleVarCheck : List Value → Except String Unit
  | [] => .ok ()
  | v :: rest =>
      if VALUE_IS_NULL v then .error "variable not defined!"
      else compileModuleVarCheck rest

/-! ## C4: Thread.new (primThreadNew in vm/core.c, newObjThread in object/obj_thread.c)

newObjThread receives an ObjClosure pointer and builds a thread whose single prepared
frame runs that closure.  primThreadNew validates args[1] with validateFn and then calls
newObjThread(vm, VALUE_TO_OBJCLOSURE(args[0])) - the RECEIVER, not the argument - and
finally stores Null into stack slot 0.

validateFn tests VALUE_TO_OBJCLOSURE(arg), i.e. whether the reinterpreted header
pointer is non-null: every object value passes, the four singleton tags carry the zero
union written by VT_TO_VALUE and fail, and for a number the test depends on the bit
pattern of the double, which is outside this embedding (none). -/

def validateFn : Value → Option Bool
  | .obj _ => some true
  | .undefined | .null | .vtrue | .vfalse => some false
  | .num _ => none

/-- VALUE_TO_OBJCLOSURE from class.h is an unchecked pointer cast; it yields a valid
ObjClosure only when the value really is a closure object. -/
def VALUE_TO_OBJCLOSURE : Value → Option ℕ
  | .obj (.closure id) => some id
  | _ => none

structure ObjThreadM where
  closureId : ℕ
  stackSlot0 : Value
deriving DecidableEq, Repr

/-- newObjThread from object/obj_thread.c: the thread is created with one frame whose
closure is the objClosure argument (resetThread / prepareFrame). -/
def newObjThread (objClosureId : ℕ) : ObjThreadM :=
  { closureId := objClosureId, stackSlot0 := Value.undefined }

inductive ThreadNewResult where
  | ok (t : ObjThreadM)
  | errReturn (msg : String)
  | castUndefined
  | unmodeled
deriving DecidableEq, Repr

/-- primThreadNew from vm/core.c.  castUndefined marks the path where the receiver is
reinterpreted as a closure although it is not one (newObjThread then dereferences a
non-closure object as ObjClosure, which has no defined meaning). -/
def primThreadNew (args0 args1 : Value) : ThreadNewResult :=
  match validateFn args1 with
  | none => .unmodeled
  | some false => .errReturn "argument must be a function!"
  | some true =>
      match VALUE_TO_OBJCLOSURE args0 with
      | none => .castUndefined
      | some cid => .ok { newObjThread cid with stackSlot0 := Value.null }

/-! ## C6: method lookup guard of OPCODE_CALL0..16 and OPCODE_SUPER0..16 (vm/vm.c)

Both opcode families fetch method = &class->methods.datas[index] and then test

    if ((uint32_t)index > class->methods.count || method->type == MT_NONE) RUN_ERROR(...)

The datas array is a growable buffer with count initialized entries; a read at
position count or beyond hits memory the buffer has never initialized.  The model
keeps the backing store as a total function so that slots past count exist but hold
arbitrary garbage supplied by the instance. -/

inductive MethodType where
  | mtNone
  | primitive
  | script
  | fnCall
deriving DecidableEq, Repr

structure MethodBufferM where
  datas : ℕ → MethodType
  count : ℕ

/-- The error test of the CALL and SUPER handlers, exactly as written: the index is
compared with count using a strict greater-than. -/
def methodNotFoundCheck (methods : MethodBufferM) (index : ℕ) : Bool :=
  decide (index > methods.count) || decide (methods.datas index = MethodType.mtNone)

/-! ## C7: falsey test and the three conditional-jump opcodes (vm/vm.c)

Each handler reads a 2-byte offset and tests its condition with
VALUE_IS_FALSE(condition) || VALUE_IS_NULL(condition).  OPCODE_JUMP_IF_FALSE pops the
condition; OPCODE_AND peeks, jumps over the right operand when falsey and otherwise
drops the condition; OPCODE_OR peeks, drops and falls through when falsey and
otherwise jumps.  The state is the operand stack (top first) and the ip; none models
a stack underflow, which compiled code never produces. -/

def execJumpIfFalse (stack : List Value) (ip offset : ℕ) : Option (List Value × ℕ) :=
  match stack with
  | [] => none
  | condition :: rest =>
      if VALUE_IS_FALSE condition || VALUE_IS_NULL condition then some (rest, ip + offset)
      else some (rest, ip)

def execAnd (stack : List Value) (ip offset : ℕ) : Option (List Value × ℕ) :=
  match stack with
  | [] => none
  | condition :: rest =>
      if VALUE_IS_FALSE condition || VALUE_IS_NULL condition then
        some (condition :: rest, ip + offset)
      else some (rest, ip)

def execOr (stack : List Value) (ip offset : ℕ) : Option (List Value × ℕ) :=
  match stack with
  | [] => none
  | condition :: rest =>
      if VALUE_IS_FALSE condition || VALUE_IS_NULL condition then some (rest, ip)
      else some (condition :: rest, ip + offset)

/-! ## Lists (object/obj_list.c and the List primitives of vm/core.c)

A list object is modelled by its logical element sequence: the first count slots of the
elements buffer.  The capacity bookkeeping (and the shrink path of removeElement, which
touches only the capacity) does not affect this sequence and is not represented. -/

/-- validateIndexValue from vm/core.c.  The C argument is a double; rationals stand in
for doubles, and the test trunc(value) == value holds exactly for the rationals with
denominator 1.  A negative index is shifted by length once, then the index must land in
the interval from 0 inclusive to length exclusive. -/
def validateIndexValue (index : ℚ) (length : ℕ) : Except String ℕ :=
  if index.den ≠ 1 then .error "argument must be integer!"
  else
    let i : ℤ := index.num
    let i2 : ℤ := if i < 0 then i + length else i
    if 0 ≤ i2 ∧ i2 < length then .ok i2.toNat
    else .error "index out of bound!"

/-- The downward copy loop of insertElement: while idx > index, datas[idx] takes the
value of datas[idx - 1], and idx decreases. -/
def shiftUpLoop (index : ℕ) (datas : List Value) (idx : ℕ) : List Value :=
  if idx > index then
    shiftUpLoop index (datas.set idx (datas.getD (idx - 1) Value.null)) (idx - 1)
  else datas
termination_by idx
decreasing_by omega

/-- insertElement from object/obj_list.c.  The bounds test is
index > elements.count - 1 in uint32 arithmetic, so for an empty list the subtraction
wraps to 2 ^ 32 - 1 and the test never fires.  On success a Null slot is appended
(ValueBufferAdd), the tail is shifted up, and the value is stored at index. -/
def insertElement (elements : List Value) (index : ℕ) (value : Value) :
    Except String (List Value) :=
  if index > (elements.length + 2 ^ 32 - 1) % 2 ^ 32 then .error "index out bounded!"
  else
    let datas := elements ++ [Value.null]
    .ok ((shiftUpLoop index datas (datas.length - 1)).set index value)

/-- The upward copy loop of removeElement: while idx < count - 1, datas[idx] takes the
value of datas[idx + 1], and idx increases. -/
def shiftDownLoop (datas : List Value) (idx : ℕ) : List Value :=
  if idx < datas.length - 1 then
    shiftDownLoop (datas.set idx (datas.getD (idx + 1) Value.null)) (idx + 1)
  else datas
termination_by datas.length - idx
decreasing_by simp_all [List.length_set]; omega

/-- removeElement from object/obj_list.c: read the removed value, shift the tail down,
decrement count (modelled by dropping the now dead last slot).  The capacity-shrink
branch only rewrites capacity and is outside the logical sequence. -/
def removeElement (elements : List Value) (index : ℕ) : Value × List Value :=
  let valueRemoved := elements.getD index Value.null
  let datas := shiftDownLoop elements index
  (valueRemoved, datas.dropLast)

/-- primListInsert from vm/core.c: the index argument is validated against
count + 1 (the comment in the source says the + 1 is there so that insertion at the
end is possible), then insertElement runs. -/
def primListInsert (elements : List Value) (indexArg : ℚ) (value : Value) :
    Except String (List Value) :=
  match validateIndexValue indexArg (elements.length + 1) with
  | .error m => .error m
  | .ok index => insertElement elements index value

/-- primListRemoveAt from vm/core.c: validate against count, then removeElement; the
removed value is the return value of the call. -/
def primListRemoveAt (elements : List Value) (indexArg : ℚ) :
    Except String (Value × List Value) :=
  match validateIndexValue indexArg elements.length with
  | .error m => .error m
  | .ok index => .ok (removeElement elements index)

/-- calculateRange from vm/core.c: validate both bounds of the range against the
element count; on success return the start index, the number of indexed elements
abs(from - to) + 1, and the direction, 1 when from < to and otherwise -1. -/
def calculateRange (rangeFrom rangeTo : ℚ) (length : ℕ) : Except String (ℕ × ℕ × ℤ) :=
  match validateIndexValue rangeFrom length with
  | .error m => .error m
  | .ok f =>
      match validateIndexValue rangeTo length with
      | .error m => .error m
      | .ok t => .ok (f, (f - t : ℤ).natAbs + 1, if f < t then 1 else -1)

/-- Result of primListSubscript.  retElement: the native returned true with an element.
retNewList: the native returned true with a freshly created list holding the given
elements, while errorObj carries the given pending error, if any - this is the path
where calculateRange failed but the function does not test the failure and returns the
new list anyway, which for an empty receiver copies nothing.  errReturn: the native set
errorObj and returned false.  undefinedRead: calculateRange failed on a non-empty
receiver, so the copy loop would read from index UINT32_MAX onward, out of bounds. -/
inductive ListSubscriptOut where
  | retElement (v : Value)
  | retNewList (elems : List Value) (errorObj : Option String)
  | errReturn (msg : String)
  | undefinedRead (msg : String)
deriving DecidableEq, Repr

/-- primListSubscript from vm/core.c. -/
def primListSubscript (elements : List Value) (arg : Value) : ListSubscriptOut :=
  match arg with
  | .num q =>
      match validateIndexValue q elements.length with
      | .error m => .errReturn m
      | .ok index => .retElement (elements.getD index Value.null)
  | .obj (.range rangeFrom rangeTo) =>
      match calculateRange rangeFrom rangeTo elements.length with
      | .error m =>
          if elements.length = 0 then .retNewList [] (some m)
          else .undefinedRead m
      | .ok (startIndex, count, direction) =>
          .retNewList
            ((List.range count).map fun idx =>
              elements.getD ((startIndex : ℤ) + idx * direction).toNat Value.null)
            none
  | _ => .errReturn "subscript should be integer or range!"

/-! ## Maps (object/obj_map.c and the Map primitives of vm/core.c)

The open-addressed table is a list of entries (length = capacity) plus the count and
capacity fields.  The constants come from class.h and obj_map.h: the grow factor is 4
(class.h spells its macro name CAPACIRY_GROW_FACTOR) and MIN_CAPACITY is 64.

The C source computes hashValue(key) for probing; its Number case xors the two 32-bit
halves of the IEEE-754 bit pattern, which is outside a rational model of doubles, so
every map operation takes the hash function as an explicit parameter and all theorems
below hold for every hash function.

The load-factor comparisons use the double constant MAP_LOAD_PERCENT = 0.8:
  count + 1 > capacity * 0.8          (grow test in mapSet)
  count < capacity / 4 * 0.8          (shrink test in removeKey, integer division first)
The double nearest 0.8 is 4/5 + 2 ^ (-52) / 5.  For any m < 2 ^ 33 the exact product
m * (4/5 + 2 ^ (-52) / 5) differs from 4 * m / 5 by m / (5 * 2 ^ 52) < half an ulp, so
the rounded double product is exactly 4 * m / 5 when 5 divides 4 * m and otherwise a
value whose distance to the nearest integers is more than 1/8; either way a comparison
against an integer agrees with the exact rational comparison.  Both tests are therefore
written as the equivalent integer comparisons 5 * (count + 1) > 4 * capacity and
5 * count < 4 * (capacity / 4). -/

def CAPACITY_GROW_FACTOR : ℕ := 4

def MIN_CAPACITY : ℕ := 64

structure MapEntry where
  key : Value
  value : Value
deriving DecidableEq, Repr

structure ObjMapM where
  entries : List MapEntry
  capacity : ℕ
  count : ℕ
deriving DecidableEq, Repr

/-- newObjMap from object/obj_map.c: no entries, capacity and count zero. -/
def newObjMap : ObjMapM := ⟨[], 0, 0⟩

/-- The probe loop of addEntry.  A free slot (key of type VT_UNDEFINED, which also
covers tombstones) takes the new pair and reports a fresh insertion; a slot whose key
equals the new key takes the value only; otherwise probing continues at
(index + 1) % capacity.  The C loop runs forever if no slot ever matches; the fuel
counts the probes and none stands for that divergence (as well as for a read past the
entry array, impossible when the entry list has length capacity > 0). -/
def addEntryLoop (entries : List MapEntry) (capacity : ℕ) (key value : Value) :
    ℕ → ℕ → Option (List MapEntry × Bool)
  | _, 0 => none
  | index, fuel + 1 =>
      match entries.get? index with
      | none => none
      | some e =>
          if VALUE_IS_UNDEFINED e.key then some (entries.set index ⟨key, value⟩, true)
          else if valueIsEqual e.key key then some (entries.set index ⟨e.key, value⟩, false)
          else addEntryLoop entries capacity key value ((index + 1) % capacity) fuel

/-- addEntry from object/obj_map.c; the first probe is at hashValue(key) % capacity. -/
def addEntry (hash : Value → ℕ) (entries : List MapEntry) (capacity : ℕ)
    (key value : Value) : Option (List MapEntry × Bool) :=
  if capacity = 0 then none
  else addEntryLoop entries capacity key value (hash key % capacity) capacity

/-- resizeMap from object/obj_map.c: allocate newCapacity fresh slots (key Undefined,
value False), re-add every used slot of the old table when count > 0, and install the
new entry array and capacity. -/
def resizeMap (hash : Value → ℕ) (m : ObjMapM) (newCapacity : ℕ) : Option ObjMapM :=
  let newEntries := List.replicate newCapacity (⟨Value.undefined, Value.vfalse⟩ : MapEntry)
  let folded : Option (List MapEntry) :=
    if m.count > 0 then
      m.entries.foldl
        (fun acc e =>
          match acc with
          | none => none
          | some es =>
              if VALUE_IS_UNDEFINED e.key then some es
              else
                match addEntry hash es newCapacity e.key e.value with
                | none => none
                | some r => some r.1)
        (some newEntries)
    else some newEntries
  match folded with
  | none => none
  | some es => some ⟨es, newCapacity, m.count⟩

/-- mapSet from object/obj_map.c: grow by CAPACITY_GROW_FACTOR (at least MIN_CAPACITY)
when the insertion would push the load factor over 0.8, then addEntry, counting the
entry when it is a fresh insertion. -/
def mapSet (hash : Value → ℕ) (m : ObjMapM) (key value : Value) : Option ObjMapM :=
  let grown : Option ObjMapM :=
    if 5 * (m.count + 1) > 4 * m.capacity then
      let newCapacity :=
        if m.capacity * CAPACITY_GROW_FACTOR < MIN_CAPACITY then MIN_CAPACITY
        else m.capacity * CAPACITY_GROW_FACTOR
      resizeMap hash m newCapacity
    else some m
  match grown with
  | none => none
  | some m1 =>
      match addEntry hash m1.entries m1.capacity key value with
      | none => none
      | some (es, isNewAdd) =>
          some ⟨es, m1.capacity, if isNewAdd then m1.count + 1 else m1.count⟩

/-- The probe loop of findEntry: stop with the slot index on a key match; stop with no
result on a never-used slot (key Undefined and value False, while a tombstone has value
True and keeps the probe alive); otherwise continue at (index + 1) % capacity.  Fuel as
in addEntryLoop. -/
def findEntryLoop (entries : List MapEntry) (capacity : ℕ) (key : Value) :
    ℕ → ℕ → Option (Option ℕ)
  | _, 0 => none
  | index, fuel + 1 =>
      match entries.get? index with
      | none => none
      | some e =>
          if valueIsEqual e.key key then some (some index)
          else if VALUE_IS_UNDEFINED e.key && VALUE_IS_FALSE e.value then some none
          else findEntryLoop entries capacity key ((index + 1) % capacity) fuel

/-- findEntry from object/obj_map.c: NULL immediately when capacity is 0, else probe
from hashValue(key) % capacity.  The inner option is the found slot (none = NULL). -/
def findEntry (hash : Value → ℕ) (m : ObjMapM) (key : Value) : Option (Option ℕ) :=
  if m.capacity = 0 then some none
  else findEntryLoop m.entries m.capacity key (hash key % m.capacity) m.capacity

/-- mapGet from object/obj_map.c: the value of the found entry, or Undefined. -/
def mapGet (hash : Value → ℕ) (m : ObjMapM) (key : Value) : Option Value :=
  match findEntry hash m key with
  | none => none
  | some none => some Value.undefined
  | some (some idx) => some ((m.entries.getD idx ⟨Value.undefined, Value.vfalse⟩).value)

/-- clearMap from object/obj_map.c: release the entries, zero count and capacity. -/
def clearMap : ObjMapM := ⟨[], 0, 0⟩

/-- removeKey from object/obj_map.c: Null when the key is absent; otherwise write the
tombstone (key Undefined, value True), decrement count, then either clear the whole
table when count reached 0, or shrink to capacity / 4 (at least MIN_CAPACITY) when
count < capacity / 4 * 0.8 and count > MIN_CAPACITY, and return the removed value. -/
def removeKey (hash : Value → ℕ) (m : ObjMapM) (key : Value) :
    Option (ObjMapM × Value) :=
  match findEntry hash m key with
  | none => none
  | some none => some (m, Value.null)
  | some (some idx) =>
      let value := (m.entries.getD idx ⟨Value.undefined, Value.vfalse⟩).value
      let es := m.entries.set idx ⟨Value.undefined, Value.vtrue⟩
      let count1 := m.count - 1
      if count1 = 0 then some (clearMap, value)
      else if 5 * count1 < 4 * (m.capacity / CAPACITY_GROW_FACTOR) ∧ count1 > MIN_CAPACITY then
        let newCapacity :=
          if m.capacity / CAPACITY_GROW_FACTOR < MIN_CAPACITY then MIN_CAPACITY
          else m.capacity / CAPACITY_GROW_FACTOR
        match resizeMap hash ⟨es, m.capacity, count1⟩ newCapacity with
        | none => none
        | some m2 => some (m2, value)
      else some (⟨es, m.capacity, count1⟩, value)

/-- validateKey from vm/core.c: booleans, null, numbers, strings, ranges and classes
are valid map keys. -/
def validateKey (arg : Value) : Bool :=
  match arg with
  | .vtrue | .vfalse | .null | .num _ => true
  | .obj (.str _) | .obj (.range _ _) | .obj (.cls _) => true
  | _ => false

/-- primMapSubscript from vm/core.c: validate the key, mapGet, and turn an Undefined
result (key absent) into a normal Null return.  The outer none is the divergence of the
probe loop, never reached in the modelled scenarios. -/
def primMapSubscript (hash : Value → ℕ) (m : ObjMapM) (key : Value) :
    Option (Except String Value) :=
  if validateKey key = false then some (.error "key must be value type!")
  else
    match mapGet hash m key with
    | none => none
    | some v =>
        if VALUE_IS_UNDEFINED v then some (.ok Value.null)
        else some (.ok v)

/-! ## Concrete instances used by the theorems below -/

/-- The superClass pointers after the bindings the program would make for
class A (id 1, requested superclass objectClass = id 0) and class B (id 2, requested
superclass A): newRawClass starts every field at NULL, and each bindSuperClass call
then stores the subclass itself. -/
def boundHeap : ℕ → Option ℕ :=
  bindSuperClass (bindSuperClass (fun _ => none) 1 0) 2 1

/-- A hash function usable where the probing path is irrelevant or trivial. -/
def zeroHash : Value → ℕ := fun _ => 0

/-- A hash function that sends the number n to n, exercising distinct probe slots for
the concrete tables below; all general theorems hold for every hash function. -/
def numKeyHash : Value → ℕ
  | .num q => q.num.toNat
  | _ => 0

/-- A reachable map state: growing 64 -> 256 -> 1024 happens at the 205th insertion, so
a table with capacity 1024 and count 205 arises from 205 fresh insertions under
numKeyHash with keys 0..204 landing in slots 0..204. -/
def mapCap1024Count205 : ObjMapM :=
  ⟨(List.range 1024).map fun i =>
      if i < 205 then ⟨Value.num i, Value.null⟩ else ⟨Value.undefined, Value.vfalse⟩,
   1024, 205⟩

/-- A map holding one entry at slot 0, capacity 64, count 1: the state after a single
insertion into a fresh map under zeroHash or numKeyHash with key 0. -/
def mapCap64Count1 : ObjMapM :=
  ⟨(List.range 64).map fun i =>
      if i = 0 then ⟨Value.num 0, Value.null⟩ else ⟨Value.undefined, Value.vfalse⟩,
   64, 1⟩

/-- The state after the first insertion into a fresh map. -/
def mapAfterFirstInsert : ObjMapM :=
  (mapSet zeroHash newObjMap (Value.num 0) Value.null).getD newObjMap

/-- The state and removed value after deleting key 204 from mapCap1024Count205, the
deletion that leaves count = 204 > 64 with 204 below the shrink threshold. -/
def mapAfterQualifyingDelete : ObjMapM × Value :=
  (removeKey numKeyHash mapCap1024Count205 (Value.num 204)).getD (newObjMap, Value.null)

/-- A method buffer with one bound method; the backing store past count holds whatever
the allocator left there, here a non-None kind, as the C buffer may. -/
def garbageTailMethods : MethodBufferM :=
  ⟨fun i => if i = 0 then MethodType.primitive else MethodType.script, 1⟩

/-! ## Theorems -/

/-- C1: the claim says patchPlaceHolder stores currentOffset - placeholderOffset - 2
big-endian over the two placeholder bytes, so that decoding them yields that offset.
The code is a slip: it uses the logical and operator where its own comments describe a
bitwise mask, so for offset 5 the patched bytes are 0 and 1 and decode to 1, not 5.
This theorem evaluates the embedded emit and patch functions at that failing input. -/
theorem C1_patch_writes_logical_and_bytes :
    emitIntstrWithPlaceholder [] 30 = ([30, 255, 255], 1) ∧
    ([30, 255, 255, 0, 0, 0, 0, 0] : List ℕ).length - 1 - 2 = 5 ∧
    patchPlaceHolder [30, 255, 255, 0, 0, 0, 0, 0] 1 = [30, 0, 1, 0, 0, 0, 0, 0] ∧
    decodeShortOperand (patchPlaceHolder [30, 255, 255, 0, 0, 0, 0, 0] 1) 1 = 1 ∧
    (1 : ℕ) ≠ 5 := by
  refine ⟨by decide, by decide, by decide, by decide, by decide⟩

theorem primObjectIsLoop_self_loop (superClassOf : ℕ → Option ℕ) (thisClass base : ℕ)
    (hne : thisClass ≠ base) (hself : superClassOf base = some base) :
    ∀ fuel, primObjectIsLoop superClassOf thisClass (some base) fuel = none := by
  intro fuel
  induction fuel with
  | zero => rfl
  | succ n ih =>
      rw [primObjectIsLoop, if_neg (by simpa using hne), hself]
      exact ih

/-- C2 counterexample: on the heap built by binding class 1 (A, requested superclass 0)
and class 2 (B, requested superclass A) with bindSuperClass, both bound classes point
at themselves.  For o of class B the claim says o.is(A) returns a boolean - false here,
since the only class on the superclass chain of B is B itself - but the call never
returns at all: the walk steps from A to A forever, whatever the iteration bound. -/
theorem C2_is_counterexample :
    boundHeap 1 = some 1 ∧
    boundHeap 2 = some 2 ∧
    (∀ n, iterateSuperClass boundHeap 2 n = some 2) ∧
    (∀ fuel, primObjectIs boundHeap 2 (Value.obj (VObj.cls 1)) fuel = none) := by
  refine ⟨by decide, by decide, ?_, ?_⟩
  · intro n
    induction n with
    | zero => rfl
    | succ k ih =>
        rw [iterateSuperClass, show boundHeap 2 = some 2 by decide]
        exact ih
  · intro fuel
    simp only [primObjectIs]
    rw [primObjectIsLoop_self_loop boundHeap 2 1 (by decide) (by decide) fuel]

/-- C2 amended: on the class heaps this program builds, o.is(X) behaves as follows.
A non-class argument raises the runtime error argument must be class!.  When X is
exactly the class of o, the call returns true.  When the superClass field of X is NULL
- only classes never passed to bindSuperClass as the subclass, such as objectClass -
and X is not the class of o, the call returns false.  In every other case bindSuperClass
has assigned subClass->superClass = subClass, the superClass field of X points at X
itself, and the walk loops forever: the call never returns.  Moreover the walk steps
along the superclass pointer OF THE ARGUMENT, not of the class of the receiver, the
reverse of the direction the claim describes (last conjunct). -/
theorem C2_is_equal_nullsuper_or_diverges :
    (∀ (superClassOf : ℕ → Option ℕ) (thisClass : ℕ) (arg : Value) (fuel : ℕ),
      VALUE_IS_CLASS arg = false →
      primObjectIs superClassOf thisClass arg fuel =
        some (.error "argument must be class!")) ∧
    (∀ (superClassOf : ℕ → Option ℕ) (x fuel : ℕ),
      primObjectIs superClassOf x (Value.obj (VObj.cls x)) (fuel + 1) =
        some (.ok Value.vtrue)) ∧
    (∀ (superClassOf : ℕ → Option ℕ) (thisClass x fuel : ℕ),
      thisClass ≠ x → superClassOf x = none →
      primObjectIs superClassOf thisClass (Value.obj (VObj.cls x)) (fuel + 1) =
        some (.ok Value.vfalse)) ∧
    (∀ (superClassOf : ℕ → Option ℕ) (thisClass x : ℕ),
      thisClass ≠ x → superClassOf x = some x →
      ∀ fuel, primObjectIs superClassOf thisClass (Value.obj (VObj.cls x)) fuel = none) ∧
    (∀ (superClassOf : ℕ → Option ℕ) (subClass superClass : ℕ),
      bindSuperClass superClassOf subClass superClass subClass = some subClass) ∧
    (∀ (superClassOf : ℕ → Option ℕ) (thisClass base fuel : ℕ),
      thisClass ≠ base →
      primObjectIsLoop superClassOf thisClass (some base) (fuel + 1) =
        primObjectIsLoop superClassOf thisClass (superClassOf base) fuel) := by
  refine ⟨?_, ?_, ?_, ?_, ?_, ?_⟩
  · intro superClassOf thisClass arg fuel h
    cases arg with
    | obj o => cases o <;> first | rfl | simp [VALUE_IS_CLASS] at h
    | _ => rfl
  · intro superClassOf x fuel
    simp only [primObjectIs, primObjectIsLoop]
    rw [if_pos (by simp)]
    rfl
  · intro superClassOf thisClass x fuel hne hnull
    simp only [primObjectIs, primObjectIsLoop]
    rw [if_neg (by simpa using hne), hnull]
    cases fuel <;> rfl
  · intro superClassOf thisClass x hne hself fuel
    simp only [primObjectIs]
    rw [primObjectIsLoop_self_loop superClassOf thisClass x hne hself fuel]
  · intro superClassOf subClass superClass
    simp [bindSuperClass]
  · intro superClassOf thisClass base fuel hne
    rw [primObjectIsLoop, if_neg (by simpa using hne)]

theorem C2_is_equal_nullsuper_or_diverges_witness :
    VALUE_IS_CLASS (Value.num 3) = false ∧
    primObjectIs boundHeap 2 (Value.num 3) 5 = some (.error "argument must be class!") ∧
    primObjectIs boundHeap 2 (Value.obj (VObj.cls 2)) 5 = some (.ok Value.vtrue) ∧
    (2 : ℕ) ≠ 0 ∧ boundHeap 0 = none ∧
    primObjectIs boundHeap 2 (Value.obj (VObj.cls 0)) 5 = some (.ok Value.vfalse) ∧
    (2 : ℕ) ≠ 1 ∧ boundHeap 1 = some 1 ∧
    primObjectIs boundHeap 2 (Value.obj (VObj.cls 1)) 9 = none ∧
    bindSuperClass boundHeap 3 0 3 = some 3 ∧
    primObjectIsLoop boundHeap 2 (some 1) 5 =
      primObjectIsLoop boundHeap 2 (boundHeap 1) 4 :=
  ⟨by decide,
   C2_is_equal_nullsuper_or_diverges.1 boundHeap 2 (Value.num 3) 5 (by decide),
   C2_is_equal_nullsuper_or_diverges.2.1 boundHeap 2 4,
   by decide, by decide,
   C2_is_equal_nullsuper_or_diverges.2.2.1 boundHeap 2 0 4 (by decide) (by decide),
   by decide, by decide,
   C2_is_equal_nullsuper_or_diverges.2.2.2.1 boundHeap 2 1 (by decide) (by decide) 9,
   C2_is_equal_nullsuper_or_diverges.2.2.2.2.1 boundHeap 3 0,
   C2_is_equal_nullsuper_or_diverges.2.2.2.2.2 boundHeap 2 1 4 (by decide)⟩

/-- C3: the claim (and the comment block in compileModule together with the
VALUE_TO_NUM extraction of the line number for the message) says module finalization
must fail iff some module variable still holds a Number left by a forward reference.
The code tests VALUE_IS_NULL instead of VALUE_IS_NUM, so it accepts a leftover Number
(an undefined variable goes unreported) and errors on a Null value, the state of every
properly defined variable.  The first conjunct checks the part of the claim that holds:
the forward-reference fallback of id stores the line number as a Number. -/
theorem C3_finalization_tests_null_not_num :
    (idForwardDeclare [] [] "foo" 3).2.1 = [Value.num 3] ∧
    compileModuleVarCheck [Value.num 3] = Except.ok () ∧
    (defineModuleVar [] [] "a" Value.null).2.1 = [Value.null] ∧
    compileModuleVarCheck [Value.null] = Except.error "variable not defined!" :=
  ⟨rfl, rfl, rfl, rfl⟩

/-- C4: the claim says Thread.new(f) returns a thread constructed from the argument
closure f.  The code calls newObjThread(vm, VALUE_TO_OBJCLOSURE(args[0])): it
reinterprets the RECEIVER (the Thread class object) as a closure, so the genuine call
Thread.new(f) never builds a thread running f (first conjunct), and whenever the
receiver slot holds some closure the thread is built from that receiver, ignoring the
argument (second conjunct). -/
theorem C4_thread_new_uses_receiver :
    primThreadNew (Value.obj (VObj.cls 0))
        (Value.obj (VObj.closure 7)) = ThreadNewResult.castUndefined ∧
    (∀ c0 c1 : ℕ,
      primThreadNew (Value.obj (VObj.closure c0)) (Value.obj (VObj.closure c1)) =
        ThreadNewResult.ok ⟨c0, Value.null⟩) :=
  ⟨rfl, fun _ _ => rfl⟩

/-- C6: the claim says a method-symbol index out of range of the methods array always
raises method not found, in particular any index at or beyond count never dispatches.
The guard in the CALL and SUPER handlers is index > count, so the out-of-range index
equal to count slips through the guard whenever the uninitialized slot read at
datas[count] happens to hold a kind other than None, and the VM proceeds to dispatch
that garbage entry; only indexes strictly beyond count are caught. -/
theorem C6_call_guard_off_by_one :
    garbageTailMethods.count = 1 ∧
    methodNotFoundCheck garbageTailMethods 1 = false ∧
    methodNotFoundCheck garbageTailMethods 2 = true :=
  ⟨rfl, rfl, rfl⟩

/-- C7: only False and Null are falsey.  With a positive jump offset (the compiler only
emits positive forward offsets and the VM asserts this): OPCODE_JUMP_IF_FALSE takes its
jump exactly when the popped value is False or Null; OPCODE_AND jumps over the right
operand, keeping the value on the stack, exactly then; OPCODE_OR falls through to the
right operand, dropping the value, exactly then; the falsey test itself accepts exactly
False and Null, and the number 0 is truthy. -/
theorem C7_falsey_is_false_or_null (condition : Value) (rest : List Value)
    (ip offset : ℕ) (h : 0 < offset) :
    (execJumpIfFalse (condition :: rest) ip offset = some (rest, ip + offset) ↔
      condition = Value.vfalse ∨ condition = Value.null) ∧
    (execAnd (condition :: rest) ip offset = some (condition :: rest, ip + offset) ↔
      condition = Value.vfalse ∨ condition = Value.null) ∧
    (execOr (condition :: rest) ip offset = some (rest, ip) ↔
      condition = Value.vfalse ∨ condition = Value.null) ∧
    ((VALUE_IS_FALSE condition || VALUE_IS_NULL condition) = true ↔
      condition = Value.vfalse ∨ condition = Value.null) ∧
    (VALUE_IS_FALSE (Value.num 0) || VALUE_IS_NULL (Value.num 0)) = false := by
  have hoff : ip + offset ≠ ip := by omega
  have hzero : ¬offset = 0 := by omega
  cases condition <;>
    simp [execJumpIfFalse, execAnd, execOr, VALUE_IS_FALSE, VALUE_IS_NULL, hoff, hzero]

theorem C7_falsey_is_false_or_null_witness :
    0 < 1 ∧
    ((execJumpIfFalse [Value.num 0] 0 1 = some ([], 0 + 1) ↔
      Value.num 0 = Value.vfalse ∨ Value.num 0 = Value.null) ∧
    (execAnd [Value.num 0] 0 1 = some ([Value.num 0], 0 + 1) ↔
      Value.num 0 = Value.vfalse ∨ Value.num 0 = Value.null) ∧
    (execOr [Value.num 0] 0 1 = some ([], 0) ↔
      Value.num 0 = Value.vfalse ∨ Value.num 0 = Value.null) ∧
    ((VALUE_IS_FALSE (Value.num 0) || VALUE_IS_NULL (Value.num 0)) = true ↔
      Value.num 0 = Value.vfalse ∨ Value.num 0 = Value.null) ∧
    (VALUE_IS_FALSE (Value.num 0) || VALUE_IS_NULL (Value.num 0)) = false) :=
  ⟨by decide, C7_falsey_is_false_or_null (Value.num 0) [] 0 1 (by decide)⟩

/-! ### Characterizations of the two copy loops of obj_list.c -/

theorem shiftUpLoop_length (m : ℕ) : ∀ (datas : List Value) (idx index : ℕ), idx ≤ m →
    (shiftUpLoop index datas idx).length = datas.length := by
  induction m with
  | zero =>
      intro datas idx index h
      rw [shiftUpLoop]
      split
      · omega
      · rfl
  | succ n ih =>
      intro datas idx index h
      rw [shiftUpLoop]
      split
      · rename_i hgt
        exact (ih _ (idx - 1) index (by omega)).trans (List.length_set ..)
      · rfl

theorem shiftUpLoop_getElem? (m : ℕ) :
    ∀ (datas : List Value) (idx index : ℕ), idx ≤ m → idx < datas.length → ∀ p : ℕ,
      (shiftUpLoop index datas idx)[p]? =
        if index < p ∧ p ≤ idx then datas[p - 1]? else datas[p]? := by
  induction m with
  | zero =>
      intro datas idx index hm _ p
      rw [shiftUpLoop]
      split
      · omega
      · rename_i hle
        rw [if_neg (by omega)]
  | succ n ih =>
      intro datas idx index hm hlt p
      rw [shiftUpLoop]
      split
      · rename_i hgt
        have hlen := List.length_set datas idx (datas.getD (idx - 1) Value.null)
        rw [ih _ (idx - 1) index (by omega) (by omega) p]
        by_cases h1 : index < p ∧ p ≤ idx - 1
        · rw [if_pos h1, if_pos (by omega), List.getElem?_set_ne (by omega)]
        · by_cases h2 : p = idx
          · subst h2
            rw [if_neg h1, if_pos (by omega),
              List.getElem?_set_eq_of_lt _ hlt,
              List.getD_eq_getElem?_getD,
              List.getElem?_eq_getElem (show p - 1 < datas.length by omega)]
            rfl
          · rw [if_neg h1, if_neg (by omega), List.getElem?_set_ne (by omega)]
      · rename_i hle
        rw [if_neg (by omega)]

theorem shiftDownLoop_length (m : ℕ) : ∀ (datas : List Value) (idx : ℕ),
    datas.length - idx ≤ m → (shiftDownLoop datas idx).length = datas.length := by
  induction m with
  | zero =>
      intro datas idx h
      rw [shiftDownLoop]
      split
      · omega
      · rfl
  | succ n ih =>
      intro datas idx h
      rw [shiftDownLoop]
      split
      · rename_i hlt
        have hlen := List.length_set datas idx (datas.getD (idx + 1) Value.null)
        exact (ih _ (idx + 1) (by omega)).trans hlen
      · rfl

theorem shiftDownLoop_getElem? (m : ℕ) :
    ∀ (datas : List Value) (idx : ℕ), datas.length - idx ≤ m → ∀ p : ℕ,
      (shiftDownLoop datas idx)[p]? =
        if idx ≤ p ∧ p < datas.length - 1 then datas[p + 1]? else datas[p]? := by
  induction m with
  | zero =>
      intro datas idx hm p
      rw [shiftDownLoop]
      split
      · omega
      · rw [if_neg (by omega)]
  | succ n ih =>
      intro datas idx hm p
      rw [shiftDownLoop]
      split
      · rename_i hlt
        have hlen := List.length_set datas idx (datas.getD (idx + 1) Value.null)
        rw [ih _ (idx + 1) (by omega) p, hlen]
        by_cases h1 : idx + 1 ≤ p ∧ p < datas.length - 1
        · rw [if_pos h1, if_pos (by omega), List.getElem?_set_ne (by omega)]
        · by_cases h2 : p = idx
          · subst h2
            rw [if_neg h1, if_pos (by omega),
              List.getElem?_set_eq_of_lt _ (by omega),
              List.getD_eq_getElem?_getD,
              List.getElem?_eq_getElem (show p + 1 < datas.length by omega)]
            rfl
          · rw [if_neg h1, if_neg (by omega), List.getElem?_set_ne (by omega)]
      · rename_i hle
        rw [if_neg (by omega)]

/-! ### Index validation on integer arguments -/

theorem validateIndexValue_intCast (i : ℤ) (length : ℕ) :
    validateIndexValue (i : ℚ) length =
      if 0 ≤ (if i < 0 then i + length else i) ∧ (if i < 0 then i + length else i) < length
      then .ok (if i < 0 then i + length else i).toNat
      else .error "index out of bound!" := by
  simp only [validateIndexValue, Rat.den_intCast, Rat.num_intCast]
  rw [if_neg (by decide)]

theorem validateIndexValue_natCast (i length : ℕ) (h : i < length) :
    validateIndexValue (i : ℚ) length = .ok i := by
  have h2 := validateIndexValue_intCast (i : ℤ) length
  have h0 : ¬ ((i : ℤ) < 0) := by omega
  simp only [if_neg h0] at h2
  rw [if_pos (by constructor <;> omega)] at h2
  have hc : (((i : ℤ) : ℚ)) = ((i : ℕ) : ℚ) := by push_cast; rfl
  rw [hc] at h2
  rw [h2]
  congr 1

/-! ### insertElement and removeElement on valid indexes -/

theorem insertElement_bound (len : ℕ) (h1 : 1 ≤ len) (h2 : len < 2 ^ 32) :
    (len + 2 ^ 32 - 1) % 2 ^ 32 = len - 1 := by
  omega

theorem insertElement_ok (L : List Value) (i : ℕ) (x : Value)
    (hi : i < L.length) (hlen : L.length < 2 ^ 32) :
    insertElement L i x =
      .ok ((shiftUpLoop i (L ++ [Value.null]) L.length).set i x) := by
  unfold insertElement
  rw [if_neg (by rw [insertElement_bound L.length (by omega) hlen]; omega)]
  simp [List.length_append]

theorem insertElement_error (L : List Value) (x : Value)
    (h : L ≠ []) (hlen : L.length < 2 ^ 32) :
    insertElement L L.length x = .error "index out bounded!" := by
  have h1 : 1 ≤ L.length := List.length_pos.mpr h
  unfold insertElement
  rw [if_pos (by rw [insertElement_bound L.length h1 hlen]; omega)]

/-- The result list of a valid insertion, position by position up to the old length. -/
theorem insertElement_result_getElem? (L : List Value) (i : ℕ) (x : Value)
    (hi : i < L.length) :
    ((shiftUpLoop i (L ++ [Value.null]) L.length).set i x).length = L.length + 1 ∧
    ∀ p : ℕ, p ≤ L.length →
      ((shiftUpLoop i (L ++ [Value.null]) L.length).set i x)[p]? =
        if p < i then L[p]?
        else if p = i then some x
        else (L ++ [Value.null])[p - 1]? := by
  have hlenA : (L ++ [Value.null]).length = L.length + 1 := by
    rw [List.length_append]
    rfl
  have hlenS : (shiftUpLoop i (L ++ [Value.null]) L.length).length = L.length + 1 := by
    rw [shiftUpLoop_length L.length _ L.length i (le_refl _), hlenA]
  refine ⟨by rw [List.length_set, hlenS], ?_⟩
  intro p hple
  have hchar := shiftUpLoop_getElem? L.length (L ++ [Value.null]) L.length i (le_refl _)
    (by omega) p
  by_cases hp : p = i
  · subst hp
    rw [List.getElem?_set_eq_of_lt x (by omega), if_neg (by omega), if_pos rfl]
  · rw [List.getElem?_set_ne (by omega), hchar]
    by_cases hlt : p < i
    · rw [if_neg (by omega), if_pos hlt]
      rw [List.getElem?_append, if_pos (by omega)]
    · rw [if_pos (by omega), if_neg hlt, if_neg hp]

/-- C8: for a valid index i, inserting x at i and then removing position i restores the
original element sequence, and the removed value is x itself. -/
theorem C8_insert_then_removeAt_roundtrip (L : List Value) (i : ℕ) (x : Value)
    (hi : i < L.length) (hlen : L.length < 2 ^ 32) :
    (primListInsert L (i : ℚ) x).bind (fun L2 => primListRemoveAt L2 (i : ℚ)) =
      .ok (x, L) := by
  have hv : validateIndexValue (i : ℚ) (L.length + 1) = .ok i :=
    validateIndexValue_natCast i (L.length + 1) (by omega)
  have hins : primListInsert L (i : ℚ) x = insertElement L i x := by
    simp only [primListInsert, hv]
  rw [hins, insertElement_ok L i x hi hlen]
  obtain ⟨hRlen, hRp⟩ := insertElement_result_getElem? L i x hi
  show primListRemoveAt ((shiftUpLoop i (L ++ [Value.null]) L.length).set i x) (i : ℚ) =
    .ok (x, L)
  have hv2 : validateIndexValue (i : ℚ)
      (((shiftUpLoop i (L ++ [Value.null]) L.length).set i x).length) = .ok i := by
    rw [hRlen]
    exact validateIndexValue_natCast i (L.length + 1) (by omega)
  have hrem : primListRemoveAt ((shiftUpLoop i (L ++ [Value.null]) L.length).set i x)
      (i : ℚ) = .ok (removeElement ((shiftUpLoop i (L ++ [Value.null]) L.length).set i x) i) := by
    simp only [primListRemoveAt, hv2]
  rw [hrem]
  have hrm : removeElement ((shiftUpLoop i (L ++ [Value.null]) L.length).set i x) i =
      (((shiftUpLoop i (L ++ [Value.null]) L.length).set i x).getD i Value.null,
       (shiftDownLoop ((shiftUpLoop i (L ++ [Value.null]) L.length).set i x) i).dropLast) := rfl
  rw [hrm]
  have hgoal1 : ((shiftUpLoop i (L ++ [Value.null]) L.length).set i x).getD i Value.null = x := by
    rw [List.getD_eq_getElem?_getD, hRp i (by omega), if_neg (by omega), if_pos rfl]
    rfl
  have hdownLen : (shiftDownLoop ((shiftUpLoop i (L ++ [Value.null]) L.length).set i x) i).length
      = L.length + 1 := by
    rw [shiftDownLoop_length (L.length + 1 + 1) _ i (by omega), hRlen]
  have hgoal2 :
      (shiftDownLoop ((shiftUpLoop i (L ++ [Value.null]) L.length).set i x) i).dropLast = L := by
    apply List.ext_getElem?
    intro p
    rw [List.dropLast_eq_take, List.getElem?_take]
    by_cases hp : p < (shiftDownLoop ((shiftUpLoop i (L ++ [Value.null]) L.length).set i x) i).length - 1
    · rw [if_pos hp]
      rw [shiftDownLoop_getElem? (L.length + 1 + 1) _ i (by omega) p, hRlen]
      by_cases hip : i ≤ p
      · rw [if_pos (by omega), hRp (p + 1) (by omega), if_neg (by omega), if_neg (by omega)]
        have hps : p + 1 - 1 = p := by omega
        rw [hps, List.getElem?_append, if_pos (by omega)]
      · rw [if_neg (by omega), hRp p (by omega), if_pos (by omega)]
    · rw [if_neg hp]
      have hnone : L.length ≤ p := by omega
      exact (List.getElem?_eq_none hnone).symm
  rw [hgoal1, hgoal2]

theorem C8_insert_then_removeAt_roundtrip_witness :
    0 < [Value.num 1, Value.num 2].length ∧
    ([Value.num 1, Value.num 2] : List Value).length < 2 ^ 32 ∧
    (primListInsert [Value.num 1, Value.num 2] ((0 : ℕ) : ℚ) Value.vtrue).bind
      (fun L2 => primListRemoveAt L2 ((0 : ℕ) : ℚ)) =
        .ok (Value.vtrue, [Value.num 1, Value.num 2]) :=
  ⟨by decide, by decide,
   C8_insert_then_removeAt_roundtrip [Value.num 1, Value.num 2] 0 Value.vtrue
     (by decide) (by decide)⟩

/-! ### C10: which insertion positions succeed -/

theorem primListInsert_intCast_ok_iff (L : List Value) (i : ℤ) (x : Value)
    (h : L ≠ []) (hlen : L.length < 2 ^ 32) :
    (∃ L2, primListInsert L (i : ℚ) x = .ok L2) ↔
      ((0 ≤ i ∧ i < L.length) ∨ (-(L.length + 1 : ℤ) ≤ i ∧ i ≤ -2)) := by
  have hn : 1 ≤ L.length := List.length_pos.mpr h
  have hv := validateIndexValue_intCast i (L.length + 1)
  by_cases hneg : i < 0
  · simp only [if_pos hneg] at hv
    by_cases hin : 0 ≤ i + ((L.length + 1 : ℕ) : ℤ) ∧
        i + ((L.length + 1 : ℕ) : ℤ) < ((L.length + 1 : ℕ) : ℤ)
    · rw [if_pos hin] at hv
      have hins : primListInsert L (i : ℚ) x =
          insertElement L (i + ((L.length + 1 : ℕ) : ℤ)).toNat x := by
        simp only [primListInsert, hv]
      by_cases hj : (i + ((L.length + 1 : ℕ) : ℤ)).toNat < L.length
      · rw [hins, insertElement_ok L _ x hj hlen]
        exact iff_of_true ⟨_, rfl⟩ (by omega)
      · have hj2 : (i + ((L.length + 1 : ℕ) : ℤ)).toNat = L.length := by omega
        rw [hins, hj2, insertElement_error L x h hlen]
        refine iff_of_false ?_ (by omega)
        rintro ⟨L2, hL2⟩
        simp at hL2
    · rw [if_neg hin] at hv
      have hins : primListInsert L (i : ℚ) x = .error "index out of bound!" := by
        simp only [primListInsert, hv]
      rw [hins]
      refine iff_of_false ?_ (by omega)
      rintro ⟨L2, hL2⟩
      simp at hL2
  · simp only [if_neg hneg] at hv
    by_cases hin : 0 ≤ i ∧ i < ((L.length + 1 : ℕ) : ℤ)
    · rw [if_pos hin] at hv
      have hins : primListInsert L (i : ℚ) x = insertElement L i.toNat x := by
        simp only [primListInsert, hv]
      by_cases hj : i.toNat < L.length
      · rw [hins, insertElement_ok L _ x hj hlen]
        exact iff_of_true ⟨_, rfl⟩ (by omega)
      · have hj2 : i.toNat = L.length := by omega
        rw [hins, hj2, insertElement_error L x h hlen]
        refine iff_of_false ?_ (by omega)
        rintro ⟨L2, hL2⟩
        simp at hL2
    · rw [if_neg hin] at hv
      have hins : primListInsert L (i : ℚ) x = .error "index out of bound!" := by
        simp only [primListInsert, hv]
      rw [hins]
      refine iff_of_false ?_ (by omega)
      rintro ⟨L2, hL2⟩
      simp at hL2

/-- C10: on a non-empty list, the one-past-the-end position count is accepted by the
index validation of primListInsert (which checks against count + 1) but then rejected
by insertElement with the runtime error index out bounded!; an integer position inserts
successfully exactly when it lies in [0, count) or is one of the negative equivalents
of those positions, which under the count + 1 wrap are [-(count+1), -2]. -/
theorem C10_insert_at_count_errors (L : List Value) (x : Value)
    (h : L ≠ []) (hlen : L.length < 2 ^ 32) :
    primListInsert L ((L.length : ℕ) : ℚ) x = .error "index out bounded!" ∧
    ∀ i : ℤ, (∃ L2, primListInsert L (i : ℚ) x = .ok L2) ↔
      ((0 ≤ i ∧ i < L.length) ∨ (-(L.length + 1 : ℤ) ≤ i ∧ i ≤ -2)) := by
  constructor
  · have hv := validateIndexValue_natCast L.length (L.length + 1) (by omega)
    have hins : primListInsert L ((L.length : ℕ) : ℚ) x = insertElement L L.length x := by
      simp only [primListInsert, hv]
    rw [hins, insertElement_error L x h hlen]
  · intro i
    exact primListInsert_intCast_ok_iff L i x h hlen

theorem C10_insert_at_count_errors_witness :
    ([Value.num 1] : List Value) ≠ [] ∧
    ([Value.num 1] : List Value).length < 2 ^ 32 ∧
    primListInsert [Value.num 1] (((1 : ℕ)) : ℚ) Value.vtrue =
      .error "index out bounded!" := by
  refine ⟨by decide, by decide, ?_⟩
  exact (C10_insert_at_count_errors [Value.num 1] Value.vtrue (by decide) (by decide)).1

/-! ### C9: subscripting an empty list and an empty map -/

theorem validateIndexValue_zero (q : ℚ) : ∃ msg, validateIndexValue q 0 = .error msg := by
  simp only [validateIndexValue]
  by_cases h1 : q.den ≠ 1
  · rw [if_pos h1]
    exact ⟨_, rfl⟩
  · rw [if_neg h1]
    rw [if_neg (by
      rintro ⟨ha, hb⟩
      have hq := lt_of_le_of_lt ha hb
      simp at hq)]
    exact ⟨_, rfl⟩

/-- C9 amended: subscripting an empty list with a number index raises the runtime error
index out of bound! (or argument must be integer! for a fractional number), and a
subscript that is neither a number nor a range raises subscript should be integer or
range!; but with a range subscript the failure of calculateRange goes untested, the
error object is recorded while the call still completes normally, returning a freshly
created empty list; and subscripting an empty map with any valid key is not an error at
all: the missing key makes mapGet return Undefined, which the primitive turns into a
normal Null return. -/
theorem C9_empty_subscripts :
    (∀ q : ℚ, ∃ msg, primListSubscript [] (Value.num q) = .errReturn msg) ∧
    (∀ f t : ℚ, ∃ msg,
      primListSubscript [] (Value.obj (VObj.range f t)) = .retNewList [] (some msg)) ∧
    (∀ v : Value, VALUE_IS_NUM v = false → VALUE_IS_OBJRANGE v = false →
      primListSubscript [] v = .errReturn "subscript should be integer or range!") ∧
    (∀ (hash : Value → ℕ) (k : Value), validateKey k = true →
      primMapSubscript hash newObjMap k = some (.ok Value.null)) := by
  refine ⟨?_, ?_, ?_, ?_⟩
  · intro q
    obtain ⟨msg, hmsg⟩ := validateIndexValue_zero q
    refine ⟨msg, ?_⟩
    simp only [primListSubscript, List.length_nil, hmsg]
  · intro f t
    obtain ⟨msg, hmsg⟩ := validateIndexValue_zero f
    refine ⟨msg, ?_⟩
    simp only [primListSubscript, calculateRange, List.length_nil, hmsg]
    simp
  · intro v hn hr
    cases v with
    | num q => simp [VALUE_IS_NUM] at hn
    | obj o =>
        cases o with
        | range f t => simp [VALUE_IS_OBJRANGE] at hr
        | _ => rfl
    | _ => rfl
  · intro hash k hk
    simp only [primMapSubscript, hk, mapGet, findEntry, newObjMap, VALUE_IS_UNDEFINED]
    norm_num

theorem C9_empty_subscripts_witness :
    (∃ msg, primListSubscript [] (Value.num 0) = .errReturn msg) ∧
    (∃ msg, primListSubscript [] (Value.obj (VObj.range 0 0)) =
      .retNewList [] (some msg)) ∧
    VALUE_IS_NUM Value.vfalse = false ∧
    VALUE_IS_OBJRANGE Value.vfalse = false ∧
    primListSubscript [] Value.vfalse =
      .errReturn "subscript should be integer or range!" ∧
    validateKey Value.vtrue = true ∧
    primMapSubscript zeroHash newObjMap Value.vtrue = some (.ok Value.null) :=
  ⟨C9_empty_subscripts.1 0,
   C9_empty_subscripts.2.1 0 0,
   by decide, by decide,
   C9_empty_subscripts.2.2.1 Value.vfalse (by decide) (by decide),
   by decide,
   C9_empty_subscripts.2.2.2 zeroHash Value.vtrue (by decide)⟩

/-- C9 counterexample: the claim says an empty-map subscript with a valid key raises a
runtime error, and that every empty-list subscript raises one; evaluating the
primitives shows the empty-map subscript returns the normal value Null, and an
empty-list subscript with a range index returns a normal fresh empty list (the error
object is set but the native still reports success). -/
theorem C9_empty_map_subscript_returns_null :
    primMapSubscript zeroHash newObjMap Value.vtrue = some (Except.ok Value.null) ∧
    primListSubscript [] (Value.obj (VObj.range 0 0)) =
      ListSubscriptOut.retNewList [] (some "index out of bound!") := by
  refine ⟨rfl, rfl⟩

/-! ### C5: load factor and capacity management of the map -/

theorem resizeMap_fields (hash : Value → ℕ) (m : ObjMapM) (nc : ℕ) (m2 : ObjMapM)
    (h : resizeMap hash m nc = some m2) : m2.capacity = nc ∧ m2.count = m.count := by
  simp only [resizeMap] at h
  split at h
  · exact absurd h (by simp)
  · rename_i es heq
    cases h
    exact ⟨rfl, rfl⟩

theorem mapSet_fields (hash : Value → ℕ) (m : ObjMapM) (k v : Value) (m2 : ObjMapM)
    (h : mapSet hash m k v = some m2) :
    m2.capacity = (if 5 * (m.count + 1) > 4 * m.capacity
      then (if m.capacity * CAPACITY_GROW_FACTOR < MIN_CAPACITY then MIN_CAPACITY
            else m.capacity * CAPACITY_GROW_FACTOR)
      else m.capacity) ∧
    (m2.count = m.count ∨ m2.count = m.count + 1) := by
  simp only [mapSet] at h
  by_cases hgrow : 5 * (m.count + 1) > 4 * m.capacity
  · rw [if_pos hgrow] at h
    rw [if_pos hgrow]
    split at h
    · exact absurd h (by simp)
    · rename_i m1 heq
      obtain ⟨hcap1, hcnt1⟩ := resizeMap_fields hash m _ m1 heq
      split at h
      · exact absurd h (by simp)
      · rename_i es isNewAdd heq2
        cases h
        refine ⟨hcap1, ?_⟩
        cases isNewAdd with
        | false => exact Or.inl (by simp [hcnt1])
        | true => exact Or.inr (by simp [hcnt1])
  · rw [if_neg hgrow] at h
    rw [if_neg hgrow]
    split at h
    · exact absurd h (by simp)
    · rename_i m1 heq
      injection heq with heq1
      subst heq1
      split at h
      · exact absurd h (by simp)
      · rename_i es isNewAdd heq2
        cases h
        refine ⟨rfl, ?_⟩
        cases isNewAdd with
        | false => exact Or.inl (by simp)
        | true => exact Or.inr (by simp)

theorem removeKey_found_fields (hash : Value → ℕ) (m : ObjMapM) (k : Value)
    (m2 : ObjMapM) (v : Value) (idx : ℕ)
    (hfind : findEntry hash m k = some (some idx))
    (h : removeKey hash m k = some (m2, v)) :
    (m.count - 1 = 0 ∧ m2.capacity = 0) ∨
    (m.count - 1 ≠ 0 ∧
      (5 * (m.count - 1) < 4 * (m.capacity / CAPACITY_GROW_FACTOR) ∧
        m.count - 1 > MIN_CAPACITY) ∧
      m2.capacity = (if m.capacity / CAPACITY_GROW_FACTOR < MIN_CAPACITY then MIN_CAPACITY
        else m.capacity / CAPACITY_GROW_FACTOR)) ∨
    (m.count - 1 ≠ 0 ∧
      ¬(5 * (m.count - 1) < 4 * (m.capacity / CAPACITY_GROW_FACTOR) ∧
        m.count - 1 > MIN_CAPACITY) ∧
      m2.capacity = m.capacity) := by
  simp only [removeKey, hfind] at h
  by_cases h0 : m.count - 1 = 0
  · rw [if_pos h0] at h
    cases h
    exact Or.inl ⟨h0, rfl⟩
  · rw [if_neg h0] at h
    by_cases hcond : 5 * (m.count - 1) < 4 * (m.capacity / CAPACITY_GROW_FACTOR) ∧
        m.count - 1 > MIN_CAPACITY
    · rw [if_pos hcond] at h
      split at h
      · exact absurd h (by simp)
      · rename_i m3 heq
        obtain ⟨hcap3, _⟩ := resizeMap_fields hash _ _ m3 heq
        cases h
        exact Or.inr (Or.inl ⟨h0, hcond, hcap3⟩)
    · rw [if_neg hcond] at h
      cases h
      exact Or.inr (Or.inr ⟨h0, hcond, rfl⟩)

theorem removeKey_notfound_fields (hash : Value → ℕ) (m : ObjMapM) (k : Value)
    (m2 : ObjMapM) (v : Value)
    (hfind : findEntry hash m k = some none)
    (h : removeKey hash m k = some (m2, v)) : m2 = m := by
  simp only [removeKey, hfind] at h
  cases h
  rfl

/-- C5 amended: after every insertion the load factor stays at or below 0.8 (as the
exact rational comparison 5 count ≤ 4 capacity); growth multiplies the capacity by 4
with a minimum of 64; a deletion that leaves count > 64 and count below the shrink
threshold (capacity / 4) times 0.8 DIVIDES THE CAPACITY BY 4, it does not halve it; and
both operations keep the capacity either 0 (the unallocated empty table, which a
deletion of the last entry also produces by freeing the table) or at least 64. -/
theorem C5_map_load_factor_and_capacity :
    (∀ (hash : Value → ℕ) (m : ObjMapM) (k v : Value) (m2 : ObjMapM),
      5 * m.count ≤ 4 * m.capacity → mapSet hash m k v = some m2 →
      5 * m2.count ≤ 4 * m2.capacity) ∧
    (∀ (hash : Value → ℕ) (m : ObjMapM) (k v : Value) (m2 : ObjMapM),
      mapSet hash m k v = some m2 →
      m2.capacity = if 5 * (m.count + 1) > 4 * m.capacity
        then (if m.capacity * 4 < 64 then 64 else m.capacity * 4) else m.capacity) ∧
    (∀ (hash : Value → ℕ) (m : ObjMapM) (k : Value) (m2 : ObjMapM) (v : Value) (idx : ℕ),
      findEntry hash m k = some (some idx) → removeKey hash m k = some (m2, v) →
      64 < m.count - 1 → 5 * (m.count - 1) < 4 * (m.capacity / 4) →
      m2.capacity = m.capacity / 4) ∧
    (∀ (hash : Value → ℕ) (m : ObjMapM) (k v : Value) (m2 : ObjMapM),
      (m.capacity = 0 ∨ 64 ≤ m.capacity) → mapSet hash m k v = some m2 →
      (m2.capacity = 0 ∨ 64 ≤ m2.capacity)) ∧
    (∀ (hash : Value → ℕ) (m : ObjMapM) (k : Value) (m2 : ObjMapM) (v : Value),
      (m.capacity = 0 ∨ 64 ≤ m.capacity) → removeKey hash m k = some (m2, v) →
      (m2.capacity = 0 ∨ 64 ≤ m2.capacity)) := by
  have hCG : CAPACITY_GROW_FACTOR = 4 := rfl
  have hMC : MIN_CAPACITY = 64 := rfl
  refine ⟨?_, ?_, ?_, ?_, ?_⟩
  · intro hash m k v m2 hpre hset
    obtain ⟨hcap, hcnt⟩ := mapSet_fields hash m k v m2 hset
    rw [hCG, hMC] at hcap
    by_cases hgrow : 5 * (m.count + 1) > 4 * m.capacity
    · rw [if_pos hgrow] at hcap
      by_cases hsmall : m.capacity * 4 < 64
      · rw [if_pos hsmall] at hcap
        omega
      · rw [if_neg hsmall] at hcap
        omega
    · rw [if_neg hgrow] at hcap
      omega
  · intro hash m k v m2 hset
    obtain ⟨hcap, _⟩ := mapSet_fields hash m k v m2 hset
    rw [hCG, hMC] at hcap
    exact hcap
  · intro hash m k m2 v idx hfind hrk h64 hth
    rcases removeKey_found_fields hash m k m2 v idx hfind hrk with
      ⟨h0, _⟩ | ⟨_, _, hcap⟩ | ⟨_, hnc, _⟩
    · omega
    · rw [hCG, hMC] at hcap
      rw [hcap, if_neg (by omega)]
    · rw [hCG, hMC] at hnc
      omega
  · intro hash m k v m2 hzero hset
    obtain ⟨hcap, _⟩ := mapSet_fields hash m k v m2 hset
    rw [hCG, hMC] at hcap
    by_cases hgrow : 5 * (m.count + 1) > 4 * m.capacity
    · rw [if_pos hgrow] at hcap
      by_cases hsmall : m.capacity * 4 < 64
      · rw [if_pos hsmall] at hcap
        omega
      · rw [if_neg hsmall] at hcap
        omega
    · rw [if_neg hgrow] at hcap
      omega
  · intro hash m k m2 v hzero hrk
    have hfcases : findEntry hash m k = none ∨ findEntry hash m k = some none ∨
        ∃ idx, findEntry hash m k = some (some idx) := by
      rcases hf : findEntry hash m k with _ | mi
      · exact Or.inl rfl
      · rcases mi with _ | idx
        · exact Or.inr (Or.inl rfl)
        · exact Or.inr (Or.inr ⟨idx, rfl⟩)
    rcases hfcases with hf | hf | ⟨idx, hf⟩
    · simp only [removeKey, hf] at hrk
      exact absurd hrk (by simp)
    · rw [removeKey_notfound_fields hash m k m2 v hf hrk]
      exact hzero
    · rcases removeKey_found_fields hash m k m2 v idx hf hrk with
        ⟨_, hcap⟩ | ⟨_, _, hcap⟩ | ⟨_, _, hcap⟩
      · omega
      · rw [hCG, hMC] at hcap
        by_cases hsmall : m.capacity / 4 < 64
        · rw [if_pos hsmall] at hcap
          omega
        · rw [if_neg hsmall] at hcap
          omega
      · omega

set_option maxRecDepth 400000 in
/-- C5 counterexample: the deletion of key 204 from a reachable table with capacity
1024 and count 205 leaves count 204, which exceeds 64 and lies below the shrink
threshold (1024 / 4) times 0.8 = 204.8, so the claim says the capacity halves to 512;
the code divides it by 4, giving 256.  And deleting the only entry of a table with
capacity 64 frees the table: the capacity drops to 0, below the claimed floor of 64. -/
theorem C5_shrink_divides_by_four_not_two :
    64 < mapCap1024Count205.count - 1 ∧
    5 * (mapCap1024Count205.count - 1) < 4 * (mapCap1024Count205.capacity / 4) ∧
    ((removeKey numKeyHash mapCap1024Count205 (Value.num 204)).map fun p =>
      (p.1.capacity, p.1.count)) = some (256, 204) ∧
    (256 : ℕ) ≠ 1024 / 2 ∧
    ((removeKey numKeyHash mapCap64Count1 (Value.num 0)).map fun p =>
      (p.1.capacity, p.1.count)) = some (0, 0) ∧
    (0 : ℕ) < 64 := by
  refine ⟨by decide, by decide, by decide, by decide, by decide, by decide⟩

set_option maxRecDepth 400000 in
theorem C5_map_load_factor_and_capacity_witness :
    5 * newObjMap.count ≤ 4 * newObjMap.capacity ∧
    mapSet zeroHash newObjMap (Value.num 0) Value.null = some mapAfterFirstInsert ∧
    5 * mapAfterFirstInsert.count ≤ 4 * mapAfterFirstInsert.capacity ∧
    mapAfterFirstInsert.capacity =
      (if 5 * (newObjMap.count + 1) > 4 * newObjMap.capacity
       then (if newObjMap.capacity * 4 < 64 then 64 else newObjMap.capacity * 4)
       else newObjMap.capacity) ∧
    (mapAfterFirstInsert.capacity = 0 ∨ 64 ≤ mapAfterFirstInsert.capacity) ∧
    findEntry numKeyHash mapCap1024Count205 (Value.num 204) = some (some 204) ∧
    removeKey numKeyHash mapCap1024Count205 (Value.num 204) =
      some (mapAfterQualifyingDelete.1, mapAfterQualifyingDelete.2) ∧
    64 < mapCap1024Count205.count - 1 ∧
    5 * (mapCap1024Count205.count - 1) < 4 * (mapCap1024Count205.capacity / 4) ∧
    mapAfterQualifyingDelete.1.capacity = mapCap1024Count205.capacity / 4 ∧
    (mapAfterQualifyingDelete.1.capacity = 0 ∨ 64 ≤ mapAfterQualifyingDelete.1.capacity) := by
  have hset : mapSet zeroHash newObjMap (Value.num 0) Value.null =
      some mapAfterFirstInsert := by decide
  have hfind : findEntry numKeyHash mapCap1024Count205 (Value.num 204) =
      some (some 204) := by decide
  have hrk : removeKey numKeyHash mapCap1024Count205 (Value.num 204) =
      some mapAfterQualifyingDelete := by decide
  have hrk2 : removeKey numKeyHash mapCap1024Count205 (Value.num 204) =
      some (mapAfterQualifyingDelete.1, mapAfterQualifyingDelete.2) := by
    rw [Prod.mk.eta]
    exact hrk
  refine ⟨by decide, hset,
    C5_map_load_factor_and_capacity.1 zeroHash newObjMap (Value.num 0) Value.null
      mapAfterFirstInsert (by decide) hset,
    C5_map_load_factor_and_capacity.2.1 zeroHash newObjMap (Value.num 0) Value.null
      mapAfterFirstInsert hset,
    C5_map_load_factor_and_capacity.2.2.2.1 zeroHash newObjMap (Value.num 0) Value.null
      mapAfterFirstInsert (Or.inl rfl) hset,
    hfind, hrk2, by decide, by decide,
    C5_map_load_factor_and_capacity.2.2.1 numKeyHash mapCap1024Count205 (Value.num 204)
      mapAfterQualifyingDelete.1 mapAfterQualifyingDelete.2 204 hfind hrk2
      (by decide) (by decide),
    C5_map_load_factor_and_capacity.2.2.2.2 numKeyHash mapCap1024Count205 (Value.num 204)
      mapAfterQualifyingDelete.1 mapAfterQualifyingDelete.2 (Or.inr (by decide)) hrk2⟩

end Ditto
